import Mathlib

/-!
Verification of the indicator-and-scoring core of `src/bot.py`.

The source computes, over the `trade_price` (closing price) column of a
bar series, an RSI-14 momentum oscillator using plain rolling means and a
20-bar Bollinger volatility envelope, and then scores the latest values
into a Buy/Sell/Hold decision (`get_signal_score`).

Modelling conventions:
* Prices are exact rationals (`ℚ`); the float constant `2.5` is the exact
  rational `5 / 2`.
* A pandas/IEEE `NaN` entry is modelled as `Option.none`.  The source
  relies on float semantics in two places, reproduced faithfully here:
  - `rs = avg_gain / avg_loss` yields `NaN` when both are `0` (`0/0`) and
    `+inf` when only the divisor is `0`; `100 - 100/(1 + rs)` then yields
    `NaN` (modelled `none`) respectively `100`.
  - every comparison against `NaN` is false, so a `NaN` RSI falls through
    to the final `else` branch of the scorer, and a `NaN` band makes the
    band-bonus condition false.
* `rolling(window=w)` statistics are `none` until `w` observations are
  available, i.e. defined exactly on indices `w - 1 ≤ i < length`.
-/

namespace Bot

/-- A bar series: the time-ordered closing prices (`df['trade_price']`),
index 0 oldest. -/
abbrev Series := List ℚ

/-- `df['trade_price'].diff()` at index `i`: NaN (`none`) at index 0 and
past the end, otherwise the close-to-close difference. -/
def delta (s : Series) (i : ℕ) : Option ℚ :=
  if 1 ≤ i ∧ i < s.length then some (s.getD i 0 - s.getD (i - 1) 0) else none

/-- `gain = (delta.where(delta > 0, 0)).fillna(0)`: positive deltas, zero
elsewhere (including the filled-in first entry). -/
def gain (s : Series) (i : ℕ) : ℚ :=
  match delta s i with
  | some d => if 0 < d then d else 0
  | none => 0

/-- `loss = (-delta.where(delta < 0, 0)).fillna(0)`: absolute values of
negative deltas, zero elsewhere. -/
def loss (s : Series) (i : ℕ) : ℚ :=
  match delta s i with
  | some d => if d < 0 then -d else 0
  | none => 0

/-- Sum of `f` over the sliding window of width `w` ending at index `i`
(the window a pandas `rolling(w)` reduction sees at row `i`). -/
def windowSum (f : ℕ → ℚ) (i w : ℕ) : ℚ :=
  ∑ j ∈ Finset.range w, f (i - j)

/-- `avg_gain = gain.rolling(window=14).mean()`. -/
def avg_gain (s : Series) (i : ℕ) : Option ℚ :=
  if 13 ≤ i ∧ i < s.length then some (windowSum (gain s) i 14 / 14) else none

/-- `avg_loss = loss.rolling(window=14).mean()`. -/
def avg_loss (s : Series) (i : ℕ) : Option ℚ :=
  if 13 ≤ i ∧ i < s.length then some (windowSum (loss s) i 14 / 14) else none

/-- `df['RSI'] = 100 - (100 / (1 + rs))` with `rs = avg_gain / avg_loss`,
under the float semantics of the source: if either rolling mean is NaN the
result is NaN (`none`); if `avg_loss = 0` and `avg_gain = 0` then
`rs = 0/0 = NaN` so the result is NaN (`none`); if `avg_loss = 0` and
`avg_gain > 0` then `rs = +inf` and `100 - 100/(1 + rs) = 100`. -/
def RSI (s : Series) (i : ℕ) : Option ℚ :=
  match avg_gain s i, avg_loss s i with
  | some g, some l =>
      if l = 0 then (if g = 0 then none else some 100)
      else some (100 - 100 / (1 + g / l))
  | _, _ => none

/-- `df['MA20'] = df['trade_price'].rolling(window=20).mean()`. -/
def MA20 (s : Series) (i : ℕ) : Option ℚ :=
  if 19 ≤ i ∧ i < s.length then
    some (windowSum (fun j => s.getD j 0) i 20 / 20)
  else none

/-- The square of `df['StdDev'] = df['trade_price'].rolling(20).std()`:
pandas `std()` defaults to `ddof=1`, the sample variance with divisor
`n - 1 = 19`, of the closes in the trailing 20-bar window. -/
def Var20 (s : Series) (i : ℕ) : Option ℚ :=
  if 19 ≤ i ∧ i < s.length then
    some (windowSum
      (fun j => (s.getD j 0 - windowSum (fun k => s.getD k 0) i 20 / 20) ^ 2) i 20 / 19)
  else none

/-- `df['StdDev']`: the sample standard deviation itself, the real square
root of `Var20`. -/
noncomputable def StdDev (s : Series) (i : ℕ) : Option ℝ :=
  (Var20 s i).map fun v => Real.sqrt (v : ℝ)

/-- `df['Upper'] = df['MA20'] + (df['StdDev'] * 2)` (NaN whenever the
window statistics are NaN). -/
noncomputable def Upper (s : Series) (i : ℕ) : Option ℝ :=
  match MA20 s i, StdDev s i with
  | some m, some sd => some ((m : ℝ) + sd * 2)
  | _, _ => none

/-- `df['Lower'] = df['MA20'] - (df['StdDev'] * 2)`. -/
noncomputable def Lower (s : Series) (i : ℕ) : Option ℝ :=
  match MA20 s i, StdDev s i with
  | some m, some sd => some ((m : ℝ) - sd * 2)
  | _, _ => none

/-- The full per-index output of `calculate_indicators`: the columns
`RSI`, `MA20`, `StdDev`, `Upper`, `Lower` added to the frame. -/
noncomputable def indicatorFrame (s : Series) (i : ℕ) :
    Option ℚ × Option ℚ × Option ℝ × Option ℝ × Option ℝ :=
  (RSI s i, MA20 s i, StdDev s i, Upper s i, Lower s i)

/-- The scorer's action: `"매수"` (Buy), `"매도"` (Sell), `"보류"` (Hold). -/
inductive Action
  | Buy
  | Sell
  | Hold
  deriving DecidableEq

/-- The qualitative tier carried by the scorer's emoji/description/colour
outputs: the strong branch (`total_score >= 80`, rocket/fire emoji and
"강한 …" text) is `Strong`, the plain recommendation branch is `Moderate`,
and the hold branch (gray, "보류") is `Neutral`. -/
inductive Tier
  | Strong
  | Moderate
  | Neutral
  deriving DecidableEq

/-- The scorer's result, abstracting the source's 5-tuple
`(action, score, emoji, desc, color)`: `emoji`, `desc` and `color` are
determined exactly by the action together with the tier. -/
structure Signal where
  action : Action
  magnitude : ℚ
  tier : Tier
  deriving DecidableEq

/-- Python `<` on possibly-NaN floats: any comparison involving NaN is
false. -/
def ltOpt (a b : Option ℚ) : Bool :=
  match a, b with
  | some x, some y => decide (x < y)
  | _, _ => false

/-- `get_signal_score(rsi, price, lower, upper)` of `src/bot.py`.
A NaN `rsi` fails both `rsi < 30` and `rsi > 70` and so reaches the final
`else`; the band-bonus comparisons `price < lower` / `price > upper` are
evaluated with NaN-aware `ltOpt`.  `2.5` is the exact rational `5 / 2`. -/
def get_signal_score (rsi price lower upper : Option ℚ) : Signal :=
  match rsi with
  | none => { action := .Hold, magnitude := 0, tier := .Neutral }
  | some r =>
    if r < 30 then
      let band_bonus : ℚ := if ltOpt price lower then 20 else 0
      let total_score := min 100 (50 + (30 - r) * (5 / 2) + band_bonus)
      { action := .Buy, magnitude := total_score,
        tier := if 80 ≤ total_score then .Strong else .Moderate }
    else if 70 < r then
      let band_bonus : ℚ := if ltOpt upper price then 20 else 0
      let total_score := min 100 (50 + (r - 70) * (5 / 2) + band_bonus)
      { action := .Sell, magnitude := total_score,
        tier := if 80 ≤ total_score then .Strong else .Moderate }
    else { action := .Hold, magnitude := 0, tier := .Neutral }

/-- A 14-bar series with uniform `+1` increments except a final `-1` step:
twelve unit gains and one unit loss inside the trailing window at the
final index. -/
def sampleMixed : Series := [1, 2, 3, 4, 5, 6, 7, 8, 9, 10, 11, 12, 13, 12]

/-- Scenario D of the spec: the 14-bar series of closes `[100, …, 113]`
with uniform `+1` increments. -/
def sampleUp : Series :=
  [100, 101, 102, 103, 104, 105, 106, 107, 108, 109, 110, 111, 112, 113]

/-- A 15-bar series whose closes are strictly increasing across the
trailing 14 bars at the final index (indices 1–14 hold `[100, …, 113]`)
but whose first bar sits far above them, so the delta entering the
rolling window is a large loss. -/
def sampleTrap : Series :=
  [200, 100, 101, 102, 103, 104, 105, 106, 107, 108, 109, 110, 111, 112, 113]

/-- A constant 14-bar series: every delta is zero, so both trailing means
vanish at the final index. -/
def sampleFlat : Series := [100, 100, 100, 100, 100, 100, 100, 100, 100, 100, 100, 100, 100, 100]

/-- A 20-bar series covering exactly one volatility-envelope window. -/
def sampleEnv : Series :=
  [1, 2, 3, 4, 5, 6, 7, 8, 9, 10, 11, 12, 13, 14, 15, 16, 17, 18, 19, 20]

/-! ### Helper lemmas -/

lemma score_none (p l u : Option ℚ) :
    get_signal_score none p l u = { action := .Hold, magnitude := 0, tier := .Neutral } := rfl

lemma score_lt30 (o : ℚ) (p l u : Option ℚ) (h : o < 30) :
    get_signal_score (some o) p l u =
      { action := .Buy,
        magnitude := min 100 (50 + (30 - o) * (5 / 2) + (if ltOpt p l then (20 : ℚ) else 0)),
        tier := if 80 ≤ min 100 (50 + (30 - o) * (5 / 2) + (if ltOpt p l then (20 : ℚ) else 0))
          then .Strong else .Moderate } := by
  simp only [get_signal_score, if_pos h]

lemma score_gt70 (o : ℚ) (p l u : Option ℚ) (h : 70 < o) :
    get_signal_score (some o) p l u =
      { action := .Sell,
        magnitude := min 100 (50 + (o - 70) * (5 / 2) + (if ltOpt u p then (20 : ℚ) else 0)),
        tier := if 80 ≤ min 100 (50 + (o - 70) * (5 / 2) + (if ltOpt u p then (20 : ℚ) else 0))
          then .Strong else .Moderate } := by
  have h30 : ¬ o < 30 := by linarith
  simp only [get_signal_score, if_neg h30, if_pos h]

lemma score_mid (o : ℚ) (p l u : Option ℚ) (h1 : 30 ≤ o) (h2 : o ≤ 70) :
    get_signal_score (some o) p l u = { action := .Hold, magnitude := 0, tier := .Neutral } := by
  have h30 : ¬ o < 30 := not_lt.2 h1
  have h70 : ¬ 70 < o := not_lt.2 h2
  simp only [get_signal_score, if_neg h30, if_neg h70]

lemma band_bonus_nonneg (p l : Option ℚ) : (0 : ℚ) ≤ if ltOpt p l then 20 else 0 := by
  split
  · norm_num
  · exact le_refl 0

lemma magnitude_bounds_buy (o : ℚ) (p l u : Option ℚ) (h : o < 30) :
    50 < (get_signal_score (some o) p l u).magnitude ∧
      (get_signal_score (some o) p l u).magnitude ≤ 100 := by
  rw [score_lt30 o p l u h]
  refine ⟨lt_min (by norm_num) ?_, min_le_left _ _⟩
  have hb := band_bonus_nonneg p l
  have hpos : (0 : ℚ) < (30 - o) * (5 / 2) := by
    have : (0 : ℚ) < 30 - o := by linarith
    positivity
  linarith

lemma magnitude_bounds_sell (o : ℚ) (p l u : Option ℚ) (h : 70 < o) :
    50 < (get_signal_score (some o) p l u).magnitude ∧
      (get_signal_score (some o) p l u).magnitude ≤ 100 := by
  rw [score_gt70 o p l u h]
  refine ⟨lt_min (by norm_num) ?_, min_le_left _ _⟩
  have hb := band_bonus_nonneg u p
  have hpos : (0 : ℚ) < (o - 70) * (5 / 2) := by
    have : (0 : ℚ) < o - 70 := by linarith
    positivity
  linarith

lemma gain_nonneg (s : Series) (i : ℕ) : 0 ≤ gain s i := by
  cases hd : delta s i with
  | none => simp [gain, hd]
  | some d =>
    by_cases h : 0 < d
    · simp [gain, hd, h, le_of_lt h]
    · simp [gain, hd, h]

lemma loss_nonneg (s : Series) (i : ℕ) : 0 ≤ loss s i := by
  cases hd : delta s i with
  | none => simp [loss, hd]
  | some d =>
    by_cases h : d < 0
    · simp [loss, hd, h]
      linarith
    · simp [loss, hd, h]

lemma windowSum_eq_sum_Icc (f : ℕ → ℚ) (n : ℕ) :
    ∀ i, n ≤ i → windowSum f i (n + 1) = ∑ k ∈ Finset.Icc (i - n) i, f k := by
  induction n with
  | zero =>
    intro i _
    simp [windowSum]
  | succ m ih =>
    intro i hi
    have hstep : windowSum f i (m + 1 + 1) = windowSum f i (m + 1) + f (i - (m + 1)) :=
      Finset.sum_range_succ _ _
    have hins : Finset.Icc (i - (m + 1)) i = insert (i - (m + 1)) (Finset.Icc (i - m) i) := by
      ext x
      simp only [Finset.mem_Icc, Finset.mem_insert]
      omega
    have hnotmem : i - (m + 1) ∉ Finset.Icc (i - m) i := by
      simp only [Finset.mem_Icc]
      omega
    rw [hstep, ih i (by omega), hins, Finset.sum_insert hnotmem]
    ring

lemma avg_gain_eq (s : Series) (i : ℕ) (h13 : 13 ≤ i) (hlen : i < s.length) :
    avg_gain s i = some (windowSum (gain s) i 14 / 14) := by
  unfold avg_gain
  rw [if_pos ⟨h13, hlen⟩]

lemma avg_loss_eq (s : Series) (i : ℕ) (h13 : 13 ≤ i) (hlen : i < s.length) :
    avg_loss s i = some (windowSum (loss s) i 14 / 14) := by
  unfold avg_loss
  rw [if_pos ⟨h13, hlen⟩]

lemma windowSum14_gain (s : Series) (i : ℕ) (h13 : 13 ≤ i) :
    windowSum (gain s) i 14 = ∑ k ∈ Finset.Icc (i - 13) i, gain s k := by
  have h := windowSum_eq_sum_Icc (gain s) 13 i h13
  norm_num at h
  exact h

lemma windowSum14_loss (s : Series) (i : ℕ) (h13 : 13 ≤ i) :
    windowSum (loss s) i 14 = ∑ k ∈ Finset.Icc (i - 13) i, loss s k := by
  have h := windowSum_eq_sum_Icc (loss s) 13 i h13
  norm_num at h
  exact h

lemma windowSum20 (f : ℕ → ℚ) (i : ℕ) (h19 : 19 ≤ i) :
    windowSum f i 20 = ∑ k ∈ Finset.Icc (i - 19) i, f k := by
  have h := windowSum_eq_sum_Icc f 19 i h19
  norm_num at h
  exact h

lemma ltOpt_none_right (p : Option ℚ) : ltOpt p none = false := by
  cases p <;> rfl

lemma ltOpt_none_left (p : Option ℚ) : ltOpt none p = false := by
  cases p <;> rfl

/-! ### Claim theorems -/

/-- C1, counterexample: the scorer invoked with a *defined* oscillator
value 10 but *undefined* (NaN) lower and upper bands returns
Buy/100/Strong — not the Hold/0/Neutral safe default the claim requires
for any undefined input. -/
theorem scorer_undefined_band_counterexample :
    get_signal_score (some 10) (some 90) none none =
      { action := .Buy, magnitude := 100, tier := .Strong } ∧
    get_signal_score (some 10) (some 90) none none ≠
      { action := .Hold, magnitude := 0, tier := .Neutral } := by
  constructor
  · norm_num [get_signal_score, ltOpt]
  · norm_num [get_signal_score, ltOpt]

/-- C1, amended: if the *oscillator* input is undefined the scorer returns
the safe default Hold/0/Neutral; if only a band is undefined the scorer
still never fails, but merely forfeits the band bonus (the NaN comparison
is false) and can still return a Buy or Sell computed from the defined
oscillator value. -/
theorem scorer_undefined_safe_default (p l u : Option ℚ) :
    get_signal_score none p l u = { action := .Hold, magnitude := 0, tier := .Neutral } ∧
    (∀ o : ℚ, o < 30 →
      get_signal_score (some o) p none u =
        { action := .Buy, magnitude := min 100 (50 + (30 - o) * (5 / 2)),
          tier := if 80 ≤ min 100 (50 + (30 - o) * (5 / 2)) then .Strong else .Moderate }) ∧
    (∀ o : ℚ, 70 < o →
      get_signal_score (some o) p l none =
        { action := .Sell, magnitude := min 100 (50 + (o - 70) * (5 / 2)),
          tier := if 80 ≤ min 100 (50 + (o - 70) * (5 / 2)) then .Strong else .Moderate }) := by
  refine ⟨rfl, ?_, ?_⟩
  · intro o h
    rw [score_lt30 o p none u h]
    simp [ltOpt_none_right]
  · intro o h
    rw [score_gt70 o p l none h]
    simp [ltOpt_none_left, ltOpt_none_right]

/-- C1, witness for the amended claim: a NaN oscillator yields the safe
default, and oscillator 10 with a NaN lower band yields Buy/100/Strong. -/
theorem scorer_undefined_safe_default_witness :
    get_signal_score none (some 90) (some 95) (some 110) =
      { action := .Hold, magnitude := 0, tier := .Neutral } ∧
    (10 : ℚ) < 30 ∧
    get_signal_score (some 10) (some 90) none (some 110) =
      { action := .Buy, magnitude := 100, tier := .Strong } := by
  refine ⟨(scorer_undefined_safe_default (some 90) (some 95) (some 110)).1, by norm_num, ?_⟩
  have h := (scorer_undefined_safe_default (some 90) (some 95) (some 110)).2.1 10 (by norm_num)
  rw [h]
  norm_num

/-- C3: for a defined oscillator `o < 30` the scorer returns Buy with
magnitude `min 100 (50 + (30 - o) * 2.5 + b)` where `b = 20` iff
`price < lower`, and symmetrically Sell for `o > 70`; the tier is Strong
iff the magnitude is at least 80.  Scenario A (oscillator 10, price 90,
lower 95, upper 110) gives Buy/100/Strong and Scenario B (oscillator 25,
price 100) gives Buy/62.5/Moderate. -/
theorem scorer_active_branches (o p l u : ℚ) :
    (o < 30 →
      get_signal_score (some o) (some p) (some l) (some u) =
        { action := .Buy,
          magnitude := min 100 (50 + (30 - o) * (5 / 2) + (if p < l then (20 : ℚ) else 0)),
          tier := if 80 ≤ min 100 (50 + (30 - o) * (5 / 2) + (if p < l then (20 : ℚ) else 0))
            then .Strong else .Moderate }) ∧
    (70 < o →
      get_signal_score (some o) (some p) (some l) (some u) =
        { action := .Sell,
          magnitude := min 100 (50 + (o - 70) * (5 / 2) + (if u < p then (20 : ℚ) else 0)),
          tier := if 80 ≤ min 100 (50 + (o - 70) * (5 / 2) + (if u < p then (20 : ℚ) else 0))
            then .Strong else .Moderate }) ∧
    get_signal_score (some 10) (some 90) (some 95) (some 110) =
      { action := .Buy, magnitude := 100, tier := .Strong } ∧
    get_signal_score (some 25) (some 100) (some 95) (some 110) =
      { action := .Buy, magnitude := 125 / 2, tier := .Moderate } := by
  refine ⟨?_, ?_, ?_, ?_⟩
  · intro h
    rw [score_lt30 o (some p) (some l) (some u) h]
    simp [ltOpt]
  · intro h
    rw [score_gt70 o (some p) (some l) (some u) h]
    simp [ltOpt]
  · norm_num [get_signal_score, ltOpt, min_def]
  · norm_num [get_signal_score, ltOpt, min_def]

/-- C3 witness: the buy branch at oscillator 25 (Scenario B) and the sell
branch at oscillator 75, price 120, upper 110 (band breached:
`min 100 (50 + 12.5 + 20) = 82.5`, Strong). -/
theorem scorer_active_branches_witness :
    ((25 : ℚ) < 30 ∧
      get_signal_score (some 25) (some 100) (some 95) (some 110) =
        { action := .Buy, magnitude := 125 / 2, tier := .Moderate }) ∧
    ((70 : ℚ) < 75 ∧
      get_signal_score (some 75) (some 120) (some 95) (some 110) =
        { action := .Sell, magnitude := 165 / 2, tier := .Strong }) := by
  constructor
  · refine ⟨by norm_num, ?_⟩
    rw [(scorer_active_branches 25 100 95 110).1 (by norm_num)]
    norm_num [min_def]
  · refine ⟨by norm_num, ?_⟩
    rw [(scorer_active_branches 75 120 95 110).2.1 (by norm_num)]
    norm_num [min_def]

/-- C4: for a defined oscillator in the closed band `[30, 70]` the scorer
returns Hold/0/Neutral whatever the price and bands are; in particular a
band breach without momentum confirmation (Scenario C: oscillator 50,
price 120 above upper band 110) triggers no action. -/
theorem scorer_neutral_branch (o : ℚ) (p l u : Option ℚ) :
    (30 ≤ o → o ≤ 70 →
      get_signal_score (some o) p l u = { action := .Hold, magnitude := 0, tier := .Neutral }) ∧
    get_signal_score (some 50) (some 120) (some 95) (some 110) =
      { action := .Hold, magnitude := 0, tier := .Neutral } :=
  ⟨fun h1 h2 => score_mid o p l u h1 h2,
    score_mid 50 (some 120) (some 95) (some 110) (by norm_num) (by norm_num)⟩

/-- C4 witness: Scenario C through the quantified part of the theorem. -/
theorem scorer_neutral_branch_witness :
    (30 : ℚ) ≤ 50 ∧ (50 : ℚ) ≤ 70 ∧
    get_signal_score (some 50) (some 120) (some 95) (some 110) =
      { action := .Hold, magnitude := 0, tier := .Neutral } :=
  ⟨by norm_num, by norm_num,
    (scorer_neutral_branch 50 (some 120) (some 95) (some 110)).1 (by norm_num) (by norm_num)⟩

/-- C7: the three oscillator branches `< 30`, `[30, 70]`, `> 70` are
mutually exclusive and exhaustive; exactly one of Buy/Sell/Hold is
returned (each action characterises its branch), and the magnitude always
lies in `[0, 100]`. -/
theorem scorer_total (o : ℚ) (p l u : Option ℚ) :
    ((o < 30 ∨ (30 ≤ o ∧ o ≤ 70) ∨ 70 < o) ∧
      ¬ (o < 30 ∧ 30 ≤ o) ∧ ¬ (o ≤ 70 ∧ 70 < o) ∧ ¬ (o < 30 ∧ 70 < o)) ∧
    ((get_signal_score (some o) p l u).action = .Buy ↔ o < 30) ∧
    ((get_signal_score (some o) p l u).action = .Sell ↔ 70 < o) ∧
    ((get_signal_score (some o) p l u).action = .Hold ↔ 30 ≤ o ∧ o ≤ 70) ∧
    0 ≤ (get_signal_score (some o) p l u).magnitude ∧
    (get_signal_score (some o) p l u).magnitude ≤ 100 := by
  have tri : o < 30 ∨ (30 ≤ o ∧ o ≤ 70) ∨ 70 < o := by
    rcases lt_or_le o 30 with h | h
    · exact .inl h
    · rcases le_or_lt o 70 with h2 | h2
      · exact .inr (.inl ⟨h, h2⟩)
      · exact .inr (.inr h2)
  have excl : ¬ (o < 30 ∧ 30 ≤ o) ∧ ¬ (o ≤ 70 ∧ 70 < o) ∧ ¬ (o < 30 ∧ 70 < o) :=
    ⟨by rintro ⟨a, b⟩; linarith, by rintro ⟨a, b⟩; linarith, by rintro ⟨a, b⟩; linarith⟩
  rcases lt_or_le o 30 with h | h
  · have ha : (get_signal_score (some o) p l u).action = .Buy := by
      rw [score_lt30 o p l u h]
    have hm := magnitude_bounds_buy o p l u h
    refine ⟨⟨tri, excl⟩, iff_of_true ha h, ?_, ?_, by linarith [hm.1], hm.2⟩
    · exact iff_of_false (by simp [ha]) (by linarith)
    · exact iff_of_false (by simp [ha]) (by rintro ⟨a, _⟩; linarith)
  · rcases le_or_lt o 70 with h2 | h2
    · have hs := score_mid o p l u h h2
      have ha : (get_signal_score (some o) p l u).action = .Hold := by rw [hs]
      have hm : (get_signal_score (some o) p l u).magnitude = 0 := by rw [hs]
      refine ⟨⟨tri, excl⟩, ?_, ?_, iff_of_true ha ⟨h, h2⟩, by rw [hm], by rw [hm]; norm_num⟩
      · exact iff_of_false (by simp [ha]) (by linarith)
      · exact iff_of_false (by simp [ha]) (by linarith)
    · have ha : (get_signal_score (some o) p l u).action = .Sell := by
        rw [score_gt70 o p l u h2]
      have hm := magnitude_bounds_sell o p l u h2
      refine ⟨⟨tri, excl⟩, ?_, iff_of_true ha h2, ?_, by linarith [hm.1], hm.2⟩
      · exact iff_of_false (by simp [ha]) (by linarith)
      · exact iff_of_false (by simp [ha]) (by rintro ⟨_, b⟩; linarith)

/-- C7 witness: the magnitude bounds at the concrete neutral input
oscillator 50 with NaN price and bands, through the theorem. -/
theorem scorer_total_witness :
    0 ≤ (get_signal_score (some 50) none none none).magnitude ∧
    (get_signal_score (some 50) none none none).magnitude ≤ 100 :=
  ⟨(scorer_total 50 none none none).2.2.2.2.1, (scorer_total 50 none none none).2.2.2.2.2⟩

/-- C10: every scorer result is either Hold with magnitude exactly 0, or
Buy/Sell with magnitude strictly greater than 50 and at most 100 — a
non-Hold decision never carries a magnitude in `(0, 50]`. -/
theorem scorer_magnitude_dichotomy (r p l u : Option ℚ) :
    ((get_signal_score r p l u).action = .Hold ∧ (get_signal_score r p l u).magnitude = 0) ∨
    (((get_signal_score r p l u).action = .Buy ∨ (get_signal_score r p l u).action = .Sell) ∧
      50 < (get_signal_score r p l u).magnitude ∧
      (get_signal_score r p l u).magnitude ≤ 100) := by
  cases r with
  | none => exact .inl ⟨rfl, rfl⟩
  | some o =>
    rcases lt_or_le o 30 with h | h
    · exact .inr ⟨.inl (by rw [score_lt30 o p l u h]), magnitude_bounds_buy o p l u h⟩
    · rcases le_or_lt o 70 with h2 | h2
      · exact .inl ⟨by rw [score_mid o p l u h h2], by rw [score_mid o p l u h h2]⟩
      · exact .inr ⟨.inr (by rw [score_gt70 o p l u h2]), magnitude_bounds_sell o p l u h2⟩

/-- C10 witness: the dichotomy at the concrete input oscillator 25, price
100, bands 95/110, through the theorem. -/
theorem scorer_magnitude_dichotomy_witness :
    ((get_signal_score (some 25) (some 100) (some 95) (some 110)).action = .Hold ∧
      (get_signal_score (some 25) (some 100) (some 95) (some 110)).magnitude = 0) ∨
    (((get_signal_score (some 25) (some 100) (some 95) (some 110)).action = .Buy ∨
        (get_signal_score (some 25) (some 100) (some 95) (some 110)).action = .Sell) ∧
      50 < (get_signal_score (some 25) (some 100) (some 95) (some 110)).magnitude ∧
      (get_signal_score (some 25) (some 100) (some 95) (some 110)).magnitude ≤ 100) :=
  scorer_magnitude_dichotomy (some 25) (some 100) (some 95) (some 110)

/-- C2: for every index `13 ≤ i < length` whose trailing loss mean is
nonzero (the only case in which the claimed quotient is meaningful — the
zero-loss edge cases are treated separately), the oscillator equals
`100 - 100/(1 + mean(gain)/mean(loss))`, the means being the plain
arithmetic means of the trailing 14 gain respectively loss entries
(indices `[i-13, i]`, divisor 14); for every `i < 13`, and at every index
of a series shorter than 14, the oscillator is undefined. -/
theorem oscillator_formula (s : Series) (i : ℕ) :
    (13 ≤ i → i < s.length →
      (∑ k ∈ Finset.Icc (i - 13) i, loss s k) ≠ 0 →
      RSI s i = some (100 - 100 /
        (1 + ((∑ k ∈ Finset.Icc (i - 13) i, gain s k) / 14) /
          ((∑ k ∈ Finset.Icc (i - 13) i, loss s k) / 14)))) ∧
    (i < 13 → RSI s i = none) ∧
    (s.length < 14 → RSI s i = none) := by
  refine ⟨?_, ?_, ?_⟩
  · intro h13 hlen hL
    have hg := avg_gain_eq s i h13 hlen
    have hl := avg_loss_eq s i h13 hlen
    rw [windowSum14_gain s i h13] at hg
    rw [windowSum14_loss s i h13] at hl
    have hl0 : (∑ k ∈ Finset.Icc (i - 13) i, loss s k) / 14 ≠ 0 :=
      div_ne_zero hL (by norm_num)
    simp only [RSI, hg, hl]
    rw [if_neg hl0]
  · intro h
    have hc : ¬ (13 ≤ i ∧ i < s.length) := by omega
    simp [RSI, avg_gain, avg_loss, hc]
  · intro h
    have hc : ¬ (13 ≤ i ∧ i < s.length) := by omega
    simp [RSI, avg_gain, avg_loss, hc]

/-- C2 witness: on `sampleMixed` (twelve unit gains, one unit loss) the
oscillator at the final index is `100 - 100/(1 + (12/14)/(1/14)) =
1200/13`. -/
theorem oscillator_formula_witness :
    (13 : ℕ) ≤ 13 ∧ 13 < sampleMixed.length ∧
    (∑ k ∈ Finset.Icc (13 - 13) 13, loss sampleMixed k) ≠ 0 ∧
    RSI sampleMixed 13 = some (1200 / 13) := by
  have hlen : 13 < sampleMixed.length := by norm_num [sampleMixed]
  have hLsum : (∑ k ∈ Finset.Icc (13 - 13) 13, loss sampleMixed k) = 1 := by
    rw [← windowSum14_loss sampleMixed 13 (by norm_num)]
    norm_num [windowSum, loss, delta, Finset.sum_range_succ, List.getD, sampleMixed]
  have hGsum : (∑ k ∈ Finset.Icc (13 - 13) 13, gain sampleMixed k) = 12 := by
    rw [← windowSum14_gain sampleMixed 13 (by norm_num)]
    norm_num [windowSum, gain, delta, Finset.sum_range_succ, List.getD, sampleMixed]
  have h := (oscillator_formula sampleMixed 13).1 (by norm_num) hlen (by rw [hLsum]; norm_num)
  rw [hGsum, hLsum] at h
  refine ⟨by norm_num, hlen, by rw [hLsum]; norm_num, ?_⟩
  rw [h]
  norm_num

/-- C5: when both trailing means are zero the oscillator entry is the
explicit no-value marker `none` (not 0 and not 100); when the loss mean is
zero but the gain mean is not, it is exactly 100; and definedness is a
per-index matter: any index whose own trailing gain or loss sum is nonzero
has a defined oscillator value, so one index's 0/0 cannot contaminate the
others. -/
theorem oscillator_zero_ratio (s : Series) (i : ℕ) :
    (avg_gain s i = some 0 → avg_loss s i = some 0 → RSI s i = none) ∧
    (∀ g : ℚ, avg_gain s i = some g → g ≠ 0 → avg_loss s i = some 0 → RSI s i = some 100) ∧
    (∀ j, 13 ≤ j → j < s.length →
      (windowSum (gain s) j 14 ≠ 0 ∨ windowSum (loss s) j 14 ≠ 0) →
      (RSI s j).isSome = true) := by
  refine ⟨?_, ?_, ?_⟩
  · intro h1 h2
    simp [RSI, h1, h2]
  · intro g h1 hg h2
    simp [RSI, h1, h2, hg]
  · intro j h13 hlen hne
    have hg := avg_gain_eq s j h13 hlen
    have hl := avg_loss_eq s j h13 hlen
    by_cases hL : windowSum (loss s) j 14 = 0
    · have hG : windowSum (gain s) j 14 ≠ 0 := by
        rcases hne with h | h
        · exact h
        · exact absurd hL h
      have hG14 : windowSum (gain s) j 14 / 14 ≠ 0 := div_ne_zero hG (by norm_num)
      simp [RSI, hg, hl, hL, hG14]
    · have hL14 : windowSum (loss s) j 14 / 14 ≠ 0 := div_ne_zero hL (by norm_num)
      simp [RSI, hg, hl, hL14]

/-- C5 witness: on the constant series both trailing means at the final
index are zero and the oscillator entry is the explicit `none`. -/
theorem oscillator_zero_ratio_witness :
    avg_gain sampleFlat 13 = some 0 ∧ avg_loss sampleFlat 13 = some 0 ∧
    RSI sampleFlat 13 = none := by
  have hg : avg_gain sampleFlat 13 = some 0 := by
    norm_num [avg_gain, windowSum, gain, delta, Finset.sum_range_succ, List.getD, sampleFlat]
  have hl : avg_loss sampleFlat 13 = some 0 := by
    norm_num [avg_loss, windowSum, loss, delta, Finset.sum_range_succ, List.getD, sampleFlat]
  exact ⟨hg, hl, (oscillator_zero_ratio sampleFlat 13).1 hg hl⟩

/-- C6: at every defined index (`19 ≤ i < length`) the envelope center is
the arithmetic mean of the closes over `[i-19, i]`, the spread is their
sample standard deviation (squared deviations summed and divided by
`n - 1 = 19`, then the square root), the bands are `center ± 2·spread`,
hence the band width is exactly `4·spread`; all envelope entries are
undefined for `i < 19`. -/
theorem envelope_spec (s : Series) (i : ℕ) :
    (19 ≤ i → i < s.length →
      ∃ c v : ℚ,
        c = (∑ k ∈ Finset.Icc (i - 19) i, s.getD k 0) / 20 ∧
        v = (∑ k ∈ Finset.Icc (i - 19) i, (s.getD k 0 - c) ^ 2) / 19 ∧
        MA20 s i = some c ∧
        Var20 s i = some v ∧
        StdDev s i = some (Real.sqrt (v : ℝ)) ∧
        Upper s i = some ((c : ℝ) + 2 * Real.sqrt (v : ℝ)) ∧
        Lower s i = some ((c : ℝ) - 2 * Real.sqrt (v : ℝ)) ∧
        ((c : ℝ) + 2 * Real.sqrt (v : ℝ)) - ((c : ℝ) - 2 * Real.sqrt (v : ℝ))
          = 4 * Real.sqrt (v : ℝ)) ∧
    (i < 19 → MA20 s i = none ∧ Var20 s i = none ∧ StdDev s i = none ∧
      Upper s i = none ∧ Lower s i = none) := by
  constructor
  · intro h19 hlen
    have hma : MA20 s i = some ((∑ k ∈ Finset.Icc (i - 19) i, s.getD k 0) / 20) := by
      unfold MA20
      rw [if_pos ⟨h19, hlen⟩, windowSum20 (fun j => s.getD j 0) i h19]
    have hvar : Var20 s i = some ((∑ k ∈ Finset.Icc (i - 19) i,
        (s.getD k 0 - (∑ m ∈ Finset.Icc (i - 19) i, s.getD m 0) / 20) ^ 2) / 19) := by
      unfold Var20
      rw [if_pos ⟨h19, hlen⟩,
        windowSum20 (fun j => (s.getD j 0 - windowSum (fun k => s.getD k 0) i 20 / 20) ^ 2) i h19]
      simp only [windowSum20 (fun k => s.getD k 0) i h19]
    refine ⟨(∑ k ∈ Finset.Icc (i - 19) i, s.getD k 0) / 20,
      (∑ k ∈ Finset.Icc (i - 19) i,
        (s.getD k 0 - (∑ m ∈ Finset.Icc (i - 19) i, s.getD m 0) / 20) ^ 2) / 19,
      rfl, rfl, hma, hvar, ?_, ?_, ?_, by ring⟩
    · unfold StdDev
      rw [hvar]
      rfl
    · unfold Upper
      rw [hma]
      unfold StdDev
      rw [hvar]
      simp [mul_comm]
    · unfold Lower
      rw [hma]
      unfold StdDev
      rw [hvar]
      simp [mul_comm]
  · intro h
    have hc : ¬ (19 ≤ i ∧ i < s.length) := by omega
    have hma : MA20 s i = none := by
      unfold MA20
      rw [if_neg hc]
    have hvar : Var20 s i = none := by
      unfold Var20
      rw [if_neg hc]
    have hsd : StdDev s i = none := by
      unfold StdDev
      rw [hvar]
      rfl
    refine ⟨hma, hvar, hsd, ?_, ?_⟩
    · unfold Upper
      rw [hma, hsd]
    · unfold Lower
      rw [hma, hsd]

/-- C6 witness: the envelope on the 20-bar series `sampleEnv` at index 19
(the whole defined branch) and its undefinedness at index 0. -/
theorem envelope_spec_witness :
    (∃ c v : ℚ,
      c = (∑ k ∈ Finset.Icc (19 - 19) 19, sampleEnv.getD k 0) / 20 ∧
      v = (∑ k ∈ Finset.Icc (19 - 19) 19, (sampleEnv.getD k 0 - c) ^ 2) / 19 ∧
      MA20 sampleEnv 19 = some c ∧
      Var20 sampleEnv 19 = some v ∧
      StdDev sampleEnv 19 = some (Real.sqrt (v : ℝ)) ∧
      Upper sampleEnv 19 = some ((c : ℝ) + 2 * Real.sqrt (v : ℝ)) ∧
      Lower sampleEnv 19 = some ((c : ℝ) - 2 * Real.sqrt (v : ℝ)) ∧
      ((c : ℝ) + 2 * Real.sqrt (v : ℝ)) - ((c : ℝ) - 2 * Real.sqrt (v : ℝ))
        = 4 * Real.sqrt (v : ℝ)) ∧
    MA20 sampleEnv 0 = none :=
  ⟨(envelope_spec sampleEnv 19).1 (by norm_num) (by norm_num [sampleEnv]),
    ((envelope_spec sampleEnv 0).2 (by norm_num)).1⟩

/-- C8, counterexample: on `sampleTrap` the closes are strictly increasing
across the trailing 14 bars at index 14 (indices 1–14 hold `[100, …,
113]`), yet the oscillator there is not 100, because the rolling window of
deltas also contains the `200 → 100` drop that enters the window from the
bar *before* those 14 bars. -/
theorem oscillator_monotone_counterexample :
    (∀ j, j < 14 → 1 ≤ j → sampleTrap.getD j 0 < sampleTrap.getD (j + 1) 0) ∧
    RSI sampleTrap 14 ≠ some 100 := by
  constructor
  · decide
  · norm_num [RSI, avg_gain, avg_loss, windowSum, gain, loss, delta, Finset.sum_range_succ,
      List.getD, sampleTrap]

/-- C8, amended: if the closes are strictly increasing across the trailing
14 bars *and* the bar immediately before them when it exists (indices
`max(0, i-14)` through `i` — exactly the bars whose deltas feed the
rolling window), the oscillator at `i` is exactly 100; strictly
decreasing in the same sense gives exactly 0.  Scenario D (the 14-bar
series `[100, …, 113]`, final index) is an instance of the first part. -/
theorem oscillator_monotone_amended (s : Series) (i : ℕ) (h13 : 13 ≤ i)
    (hlen : i < s.length) :
    ((∀ j, j < i → i - 14 ≤ j → s.getD j 0 < s.getD (j + 1) 0) → RSI s i = some 100) ∧
    ((∀ j, j < i → i - 14 ≤ j → s.getD (j + 1) 0 < s.getD j 0) → RSI s i = some 0) := by
  constructor
  · intro hmono
    have hlossz : ∀ j ∈ Finset.range 14, loss s (i - j) = 0 := by
      intro j hj
      simp only [Finset.mem_range] at hj
      by_cases hd : 1 ≤ i - j ∧ i - j < s.length
      · have hδ : delta s (i - j) = some (s.getD (i - j) 0 - s.getD (i - j - 1) 0) := by
          unfold delta
          rw [if_pos hd]
        have hlt : s.getD (i - j - 1) 0 < s.getD (i - j - 1 + 1) 0 :=
          hmono (i - j - 1) (by omega) (by omega)
        have hidx : i - j - 1 + 1 = i - j := by omega
        rw [hidx] at hlt
        have hnn : ¬ (s.getD (i - j) 0 - s.getD (i - j - 1) 0 < 0) := by linarith
        simp only [loss, hδ]
        rw [if_neg hnn]
      · have hδ : delta s (i - j) = none := by
          unfold delta
          rw [if_neg hd]
        simp [loss, hδ]
    have hLsum : windowSum (loss s) i 14 = 0 := Finset.sum_eq_zero hlossz
    have hgain : 0 < gain s i := by
      have hδ : delta s i = some (s.getD i 0 - s.getD (i - 1) 0) := by
        unfold delta
        rw [if_pos ⟨by omega, hlen⟩]
      have hlt : s.getD (i - 1) 0 < s.getD (i - 1 + 1) 0 := hmono (i - 1) (by omega) (by omega)
      have hidx : i - 1 + 1 = i := by omega
      rw [hidx] at hlt
      have hpos : 0 < s.getD i 0 - s.getD (i - 1) 0 := by linarith
      simp only [gain, hδ]
      rw [if_pos hpos]
      exact hpos
    have hGsum : 0 < windowSum (gain s) i 14 := by
      apply Finset.sum_pos'
      · intro j _
        exact gain_nonneg s (i - j)
      · refine ⟨0, Finset.mem_range.2 (by norm_num), ?_⟩
        simpa using hgain
    have hg := avg_gain_eq s i h13 hlen
    have hl := avg_loss_eq s i h13 hlen
    have hGne : windowSum (gain s) i 14 / 14 ≠ 0 := div_ne_zero (ne_of_gt hGsum) (by norm_num)
    simp [RSI, hg, hl, hLsum, hGne]
  · intro hmono
    have hgainz : ∀ j ∈ Finset.range 14, gain s (i - j) = 0 := by
      intro j hj
      simp only [Finset.mem_range] at hj
      by_cases hd : 1 ≤ i - j ∧ i - j < s.length
      · have hδ : delta s (i - j) = some (s.getD (i - j) 0 - s.getD (i - j - 1) 0) := by
          unfold delta
          rw [if_pos hd]
        have hlt : s.getD (i - j - 1 + 1) 0 < s.getD (i - j - 1) 0 :=
          hmono (i - j - 1) (by omega) (by omega)
        have hidx : i - j - 1 + 1 = i - j := by omega
        rw [hidx] at hlt
        have hnp : ¬ (0 < s.getD (i - j) 0 - s.getD (i - j - 1) 0) := by linarith
        simp only [gain, hδ]
        rw [if_neg hnp]
      · have hδ : delta s (i - j) = none := by
          unfold delta
          rw [if_neg hd]
        simp [gain, hδ]
    have hGsum : windowSum (gain s) i 14 = 0 := Finset.sum_eq_zero hgainz
    have hloss : 0 < loss s i := by
      have hδ : delta s i = some (s.getD i 0 - s.getD (i - 1) 0) := by
        unfold delta
        rw [if_pos ⟨by omega, hlen⟩]
      have hlt : s.getD (i - 1 + 1) 0 < s.getD (i - 1) 0 := hmono (i - 1) (by omega) (by omega)
      have hidx : i - 1 + 1 = i := by omega
      rw [hidx] at hlt
      have hneg : s.getD i 0 - s.getD (i - 1) 0 < 0 := by linarith
      simp only [loss, hδ]
      rw [if_pos hneg]
      linarith
    have hLsum : 0 < windowSum (loss s) i 14 := by
      apply Finset.sum_pos'
      · intro j _
        exact loss_nonneg s (i - j)
      · refine ⟨0, Finset.mem_range.2 (by norm_num), ?_⟩
        simpa using hloss
    have hg := avg_gain_eq s i h13 hlen
    have hl := avg_loss_eq s i h13 hlen
    have hLne : windowSum (loss s) i 14 / 14 ≠ 0 := div_ne_zero (ne_of_gt hLsum) (by norm_num)
    simp [RSI, hg, hl, hGsum, hLne]

/-- C8 witness: Scenario D — on the strictly increasing 14-bar series
`[100, …, 113]` the oscillator at the final index is exactly 100. -/
theorem oscillator_monotone_amended_witness :
    (∀ j, j < 13 → 13 - 14 ≤ j → sampleUp.getD j 0 < sampleUp.getD (j + 1) 0) ∧
    RSI sampleUp 13 = some 100 := by
  refine ⟨by decide, ?_⟩
  exact (oscillator_monotone_amended sampleUp 13 (by norm_num)
    (by norm_num [sampleUp])).1 (by decide)

/-- C9: the indicator computation is a pure, deterministic function of the
input series — recomputing the frame from an identical series yields
identical entries at every index; there is no hidden state. -/
theorem indicatorFrame_deterministic (s t : Series) (h : s = t) (i : ℕ) :
    indicatorFrame s i = indicatorFrame t i := by
  rw [h]

/-- C9 witness: two computations of the frame from the same one-bar series
agree at index 0. -/
theorem indicatorFrame_deterministic_witness :
    ([(100 : ℚ)] : Series) = [(100 : ℚ)] ∧
    indicatorFrame [(100 : ℚ)] 0 = indicatorFrame [(100 : ℚ)] 0 :=
  ⟨rfl, indicatorFrame_deterministic [(100 : ℚ)] [(100 : ℚ)] rfl 0⟩

end Bot
